import Mathlib

/-!
Verification of the equirectangular-to-cubemap projection engine
(`perspective.py`) and the camera-trajectory parser
(`export_camera_trajectory.py`).

The numeric code is modelled over the real numbers (the Python source
computes with floating point; we use the ideal real-valued semantics of
the same formulas).  The resampler (`cv2.remap` with `INTER_LINEAR` and
`BORDER_WRAP`) is modelled exactly as bilinear interpolation with both
axes wrapped modulo the image size, which is what `BORDER_WRAP` does.
-/

open Real

/-- A 3D vector, as one row of the `(face_size*face_size, 3)` ray array. -/
structure Vec3 where
  x : ℝ
  y : ℝ
  z : ℝ

/-- A 3x3 real matrix, as produced by `rotation_matrix` in the source. -/
structure Mat3 where
  a00 : ℝ
  a01 : ℝ
  a02 : ℝ
  a10 : ℝ
  a11 : ℝ
  a12 : ℝ
  a20 : ℝ
  a21 : ℝ
  a22 : ℝ

/-- Matrix product, the `@` operator of numpy on 3x3 arrays. -/
def Mat3.mul (A B : Mat3) : Mat3 :=
  ⟨A.a00 * B.a00 + A.a01 * B.a10 + A.a02 * B.a20,
   A.a00 * B.a01 + A.a01 * B.a11 + A.a02 * B.a21,
   A.a00 * B.a02 + A.a01 * B.a12 + A.a02 * B.a22,
   A.a10 * B.a00 + A.a11 * B.a10 + A.a12 * B.a20,
   A.a10 * B.a01 + A.a11 * B.a11 + A.a12 * B.a21,
   A.a10 * B.a02 + A.a11 * B.a12 + A.a12 * B.a22,
   A.a20 * B.a00 + A.a21 * B.a10 + A.a22 * B.a20,
   A.a20 * B.a01 + A.a21 * B.a11 + A.a22 * B.a21,
   A.a20 * B.a02 + A.a21 * B.a12 + A.a22 * B.a22⟩

/-- Matrix-vector product `R @ v`, applied to each ray column in the source. -/
def Mat3.mulVec (A : Mat3) (v : Vec3) : Vec3 :=
  ⟨A.a00 * v.x + A.a01 * v.y + A.a02 * v.z,
   A.a10 * v.x + A.a11 * v.y + A.a12 * v.z,
   A.a20 * v.x + A.a21 * v.y + A.a22 * v.z⟩

/-- The identity matrix. -/
def Mat3.id : Mat3 := ⟨1, 0, 0, 0, 1, 0, 0, 0, 1⟩

/-- `np.deg2rad`: degrees to radians. -/
noncomputable def deg2rad (d : ℝ) : ℝ := d * Real.pi / 180

/-- `rotation_matrix(angle, axis)` from `perspective.py` (lines 106-134):
builds the standard right-handed elementary rotation about the named axis;
any other axis string raises `ValueError`, modelled as `none`. -/
noncomputable def rotation_matrix (angle : ℝ) (axis : String) : Option Mat3 :=
  if axis = "x" then
    some ⟨1, 0, 0,
          0, Real.cos angle, -Real.sin angle,
          0, Real.sin angle, Real.cos angle⟩
  else if axis = "y" then
    some ⟨Real.cos angle, 0, Real.sin angle,
          0, 1, 0,
          -Real.sin angle, 0, Real.cos angle⟩
  else if axis = "z" then
    some ⟨Real.cos angle, -Real.sin angle, 0,
          Real.sin angle, Real.cos angle, 0,
          0, 0, 1⟩
  else
    none

/-- `R = R_roll @ R_pitch @ R_yaw` from `perspective_projection`
(lines 80-83): yaw about axis y, pitch about axis x, roll about axis z,
composed right-to-left.  The angles are already in radians here, as in the
source after the `np.deg2rad` conversion. -/
noncomputable def composeR (yawR pitchR rollR : ℝ) : Mat3 :=
  (((rotation_matrix rollR "z").getD Mat3.id).mul
      ((rotation_matrix pitchR "x").getD Mat3.id)).mul
    ((rotation_matrix yawR "y").getD Mat3.id)

lemma rotation_matrix_x (a : ℝ) :
    rotation_matrix a "x" =
      some ⟨1, 0, 0, 0, Real.cos a, -Real.sin a, 0, Real.sin a, Real.cos a⟩ := by
  simp [rotation_matrix]

lemma rotation_matrix_y (a : ℝ) :
    rotation_matrix a "y" =
      some ⟨Real.cos a, 0, Real.sin a, 0, 1, 0, -Real.sin a, 0, Real.cos a⟩ := by
  simp [rotation_matrix]

lemma rotation_matrix_z (a : ℝ) :
    rotation_matrix a "z" =
      some ⟨Real.cos a, -Real.sin a, 0, Real.sin a, Real.cos a, 0, 0, 0, 1⟩ := by
  simp [rotation_matrix]

/-- Composing the three elementary rotations at angle 0 yields the identity. -/
lemma composeR_zero : composeR 0 0 0 = Mat3.id := by
  simp [composeR, rotation_matrix_x, rotation_matrix_y, rotation_matrix_z,
    Mat3.mul, Mat3.id]

lemma mulVec_id (v : Vec3) : Mat3.id.mulVec v = v := by
  simp [Mat3.id, Mat3.mulVec]

/-- C8: the composed rotation for angles (0,0,0) is the identity matrix, and
applying it to any ray leaves the ray unchanged. -/
theorem C8_compose_zero_is_identity :
    composeR 0 0 0 = Mat3.id ∧ ∀ v : Vec3, (composeR 0 0 0).mulVec v = v := by
  refine ⟨composeR_zero, fun v => ?_⟩
  rw [composeR_zero, mulVec_id]

/-- C5: the composed rotation is `R_roll * R_pitch * R_yaw` with yaw about
the vertical axis y, pitch about the horizontal axis x and roll about the
forward axis z; and for yaw = 90 degrees (pitch = roll = 0) it maps the
forward ray (0,0,1) to the rightward ray (1,0,0). -/
theorem C5_rotation_composition_order :
    (∀ yawR pitchR rollR : ℝ,
        composeR yawR pitchR rollR =
          (((rotation_matrix rollR "z").getD Mat3.id).mul
              ((rotation_matrix pitchR "x").getD Mat3.id)).mul
            ((rotation_matrix yawR "y").getD Mat3.id)) ∧
      (composeR (deg2rad 90) (deg2rad 0) (deg2rad 0)).mulVec ⟨0, 0, 1⟩ =
        ⟨1, 0, 0⟩ := by
  constructor
  · intro yawR pitchR rollR
    rfl
  · have h90 : deg2rad 90 = Real.pi / 2 := by
      unfold deg2rad; ring
    have h0 : deg2rad 0 = 0 := by
      unfold deg2rad; ring
    rw [h90, h0]
    simp [composeR, rotation_matrix_x, rotation_matrix_y, rotation_matrix_z,
      Mat3.mul, Mat3.mulVec, Mat3.id]

/-- `np.linspace(a, b, n)`: n evenly spaced samples of [a, b], both endpoints
included (for n = 1, numpy returns just the start point; in Lean the
division by (n - 1) = 0 yields 0, giving the same value a). -/
noncomputable def linspace (a b : ℝ) (n : ℕ) : List ℝ :=
  (List.range n).map fun i : ℕ => a + (b - a) * (i : ℝ) / ((n : ℝ) - 1)

/-- Ray grid before normalization (`perspective.py` lines 62-66):
`xv, yv = np.meshgrid(x, -y)` with `x = y = linspace(-1, 1, face_size)`,
`zv = ones`, flattened row-major: entry k of the `(n*n, 3)` array is
`(x[k % n], -y[k / n], 1)`. -/
noncomputable def rawRays (n : ℕ) : List Vec3 :=
  (List.range (n * n)).map fun k =>
    ⟨(linspace (-1) 1 n).getD (k % n) 0,
      -((linspace (-1) 1 n).getD (k / n) 0), 1⟩

/-- Euclidean norm `np.sqrt(xv**2 + yv**2 + zv**2)` (line 68). -/
noncomputable def Vec3.norm (v : Vec3) : ℝ :=
  Real.sqrt (v.x ^ 2 + v.y ^ 2 + v.z ^ 2)

/-- Componentwise division by the norm (lines 69-71). -/
noncomputable def Vec3.normalize (v : Vec3) : Vec3 :=
  ⟨v.x / v.norm, v.y / v.norm, v.z / v.norm⟩

/-- The normalized ray grid (lines 68-71). -/
noncomputable def normRays (n : ℕ) : List Vec3 :=
  (rawRays n).map Vec3.normalize

/-- The field of view, fixed at 90 degrees (line 55). -/
def fov : ℝ := 90

/-- FOV rescaling (lines 73-77): `theta = deg2rad(fov/2)`, the x and y
components are multiplied by `tan(theta)` and z by 1. -/
noncomputable def scaledRays (n : ℕ) : List Vec3 :=
  (normRays n).map fun v =>
    ⟨v.x * Real.tan (deg2rad (fov / 2)),
      v.y * Real.tan (deg2rad (fov / 2)), v.z * 1⟩

lemma norm_normalize_of_z_one (x y : ℝ) :
    (Vec3.normalize ⟨x, y, 1⟩).norm = 1 := by
  have hs : (0:ℝ) < x ^ 2 + y ^ 2 + 1 ^ 2 := by positivity
  have hN2 : Real.sqrt (x ^ 2 + y ^ 2 + 1 ^ 2) ^ 2 = x ^ 2 + y ^ 2 + 1 ^ 2 :=
    Real.sq_sqrt hs.le
  have hNne : Real.sqrt (x ^ 2 + y ^ 2 + 1 ^ 2) ≠ 0 :=
    ne_of_gt (Real.sqrt_pos.mpr hs)
  have hsum : (x / Real.sqrt (x ^ 2 + y ^ 2 + 1 ^ 2)) ^ 2 +
      (y / Real.sqrt (x ^ 2 + y ^ 2 + 1 ^ 2)) ^ 2 +
      (1 / Real.sqrt (x ^ 2 + y ^ 2 + 1 ^ 2)) ^ 2 = 1 := by
    field_simp
  have hgoal : (Vec3.normalize ⟨x, y, 1⟩).norm =
      Real.sqrt ((x / Real.sqrt (x ^ 2 + y ^ 2 + 1 ^ 2)) ^ 2 +
        (y / Real.sqrt (x ^ 2 + y ^ 2 + 1 ^ 2)) ^ 2 +
        (1 / Real.sqrt (x ^ 2 + y ^ 2 + 1 ^ 2)) ^ 2) := rfl
  rw [hgoal, hsum, Real.sqrt_one]

lemma rawRays_getD (n k : ℕ) (hk : k < n * n) :
    (rawRays n).getD k ⟨0, 0, 0⟩ =
      ⟨(linspace (-1) 1 n).getD (k % n) 0,
        -((linspace (-1) 1 n).getD (k / n) 0), 1⟩ := by
  unfold rawRays
  rw [List.getD_eq_getElem?_getD, List.getElem?_map, List.getElem?_range hk]
  rfl

lemma linspace_getD (a b : ℝ) (n i : ℕ) (hi : i < n) :
    (linspace a b n).getD i 0 = a + (b - a) * i / ((n : ℝ) - 1) := by
  simp [linspace, List.getD_eq_getElem?_getD, List.getElem?_map,
    List.getElem?_range, hi]

lemma linspace_getD_zero (n : ℕ) (hn : 1 ≤ n) :
    (linspace (-1) 1 n).getD 0 0 = -1 := by
  rw [linspace_getD _ _ _ _ (by omega : 0 < n)]
  norm_num

lemma linspace_getD_last (n : ℕ) (hn : 2 ≤ n) :
    (linspace (-1) 1 n).getD (n - 1) 0 = 1 := by
  rw [linspace_getD _ _ _ _ (by omega : n - 1 < n)]
  have hcast : ((n - 1 : ℕ) : ℝ) = (n : ℝ) - 1 := by
    have h1 : (1 : ℕ) ≤ n := by omega
    push_cast [Nat.cast_sub h1]
    ring
  have hne : (n : ℝ) - 1 ≠ 0 := by
    have : (2 : ℝ) ≤ (n : ℝ) := by exact_mod_cast hn
    linarith
  rw [hcast, mul_div_assoc, div_self hne]
  ring

/-- C7: for every faceSize ≥ 1 the normalized ray grid has exactly
faceSize² entries, each of unit norm before FOV rescaling; the grid is
arranged row-major from the planar grid with x running over
`linspace(-1, 1, faceSize)` and y inverted (row 0 maps to +y); the x
samples start at -1 and, for faceSize ≥ 2, end at 1 (both endpoints
included). -/
theorem C7_ray_grid (n : ℕ) (hn : 1 ≤ n) :
    (normRays n).length = n * n ∧
    (∀ k, k < n * n →
        (rawRays n).getD k ⟨0, 0, 0⟩ =
          ⟨(linspace (-1) 1 n).getD (k % n) 0,
            -((linspace (-1) 1 n).getD (k / n) 0), 1⟩) ∧
    (∀ v ∈ normRays n, v.norm = 1) ∧
    (linspace (-1) 1 n).getD 0 0 = -1 ∧
    (2 ≤ n → (linspace (-1) 1 n).getD (n - 1) 0 = 1) := by
  refine ⟨?_, fun k hk => rawRays_getD n k hk, ?_,
    linspace_getD_zero n hn, fun h2 => linspace_getD_last n h2⟩
  · simp [normRays, rawRays]
  · intro v hv
    rcases List.mem_map.mp hv with ⟨w, hw, rfl⟩
    rcases List.mem_map.mp hw with ⟨k, _, rfl⟩
    exact norm_normalize_of_z_one _ _

/-- Witness for C7 at faceSize 2. -/
theorem C7_ray_grid_witness : (normRays 2).length = 2 * 2 :=
  (C7_ray_grid 2 (by norm_num)).1

/-- `np.arctan2(y, x)`: the angle of the point with abscissa x and ordinate
y, in the principal range (-pi, pi]. -/
noncomputable def atan2 (y x : ℝ) : ℝ :=
  if 0 < x then Real.arctan (y / x)
  else if x < 0 then
    (if 0 ≤ y then Real.arctan (y / x) + Real.pi
     else Real.arctan (y / x) - Real.pi)
  else if 0 < y then Real.pi / 2
  else if y < 0 then -(Real.pi / 2)
  else 0

/-- Longitude of a rotated ray (line 92): `lon = np.arctan2(x, z)`. -/
noncomputable def lonOf (v : Vec3) : ℝ := atan2 v.x v.z

/-- Latitude of a rotated ray (line 93): `lat = np.arcsin(y)`. -/
noncomputable def latOf (v : Vec3) : ℝ := Real.arcsin v.y

/-- Pixel x coordinate (line 96): `src_x = (lon + pi)/(2 pi) * (width - 1)`. -/
noncomputable def srcX (v : Vec3) (w : ℕ) : ℝ :=
  (lonOf v + Real.pi) / (2 * Real.pi) * ((w : ℝ) - 1)

/-- Pixel y coordinate (line 97): `src_y = (pi/2 - lat)/pi * (height - 1)`. -/
noncomputable def srcY (v : Vec3) (h : ℕ) : ℝ :=
  (Real.pi / 2 - latOf v) / Real.pi * ((h : ℝ) - 1)

lemma atan2_mem (y x : ℝ) : -Real.pi < atan2 y x ∧ atan2 y x ≤ Real.pi := by
  have hpi := Real.pi_pos
  have h1 := Real.arctan_lt_pi_div_two (y / x)
  have h2 := Real.neg_pi_div_two_lt_arctan (y / x)
  unfold atan2
  split_ifs with hx hx2 hy hy2 hy3
  · constructor <;> linarith
  · have hyx : y / x ≤ 0 := by
      rw [div_nonpos_iff]
      left
      exact ⟨hy, hx2.le⟩
    have harc : Real.arctan (y / x) ≤ 0 := by
      have := Real.arctan_strictMono.monotone hyx
      rwa [Real.arctan_zero] at this
    constructor <;> linarith
  · have hyx : 0 < y / x := by
      rw [div_pos_iff]
      right
      exact ⟨by linarith, hx2⟩
    have harc : 0 < Real.arctan (y / x) := by
      have := Real.arctan_strictMono hyx
      rwa [Real.arctan_zero] at this
    constructor <;> linarith
  · constructor <;> linarith
  · constructor <;> linarith
  · constructor <;> linarith

/-- C6: the spherical mapper computes lon = atan2(x, z), lat = arcsin(y),
src_x = (lon + pi)/(2 pi) * (width - 1) and
src_y = (pi/2 - lat)/pi * (height - 1); consequently, for width ≥ 1,
src_x always lies in [0, width - 1]. -/
theorem C6_spherical_mapper (v : Vec3) (w : ℕ) (hw : 1 ≤ w) :
    lonOf v = atan2 v.x v.z ∧
    latOf v = Real.arcsin v.y ∧
    (∀ h : ℕ, srcY v h = (Real.pi / 2 - latOf v) / Real.pi * ((h : ℝ) - 1)) ∧
    srcX v w = (lonOf v + Real.pi) / (2 * Real.pi) * ((w : ℝ) - 1) ∧
    0 ≤ srcX v w ∧ srcX v w ≤ (w : ℝ) - 1 := by
  refine ⟨rfl, rfl, fun h => rfl, rfl, ?_, ?_⟩
  all_goals
    have hpi := Real.pi_pos
    have hl : -Real.pi < lonOf v := (atan2_mem v.x v.z).1
    have hu : lonOf v ≤ Real.pi := (atan2_mem v.x v.z).2
    have hwr : (0:ℝ) ≤ (w:ℝ) - 1 := by
      have : (1:ℝ) ≤ (w:ℝ) := by exact_mod_cast hw
      linarith
    have hu0 : 0 < (lonOf v + Real.pi) / (2 * Real.pi) :=
      div_pos (by linarith) (by linarith)
    have hu1 : (lonOf v + Real.pi) / (2 * Real.pi) ≤ 1 := by
      rw [div_le_one (by linarith : (0:ℝ) < 2 * Real.pi)]
      linarith
  · exact mul_nonneg hu0.le hwr
  · exact mul_le_of_le_one_left hwr hu1

/-- Witness for C6 with the forward ray (0,0,1) and width 2. -/
theorem C6_spherical_mapper_witness :
    0 ≤ srcX ⟨0, 0, 1⟩ 2 ∧ srcX ⟨0, 0, 1⟩ 2 ≤ ((2 : ℕ) : ℝ) - 1 :=
  ⟨(C6_spherical_mapper ⟨0, 0, 1⟩ 2 (by norm_num)).2.2.2.2.1,
   (C6_spherical_mapper ⟨0, 0, 1⟩ 2 (by norm_num)).2.2.2.2.2⟩

/-- A decoded image: height, width, channel count and pixel values indexed
by (row, column, channel). -/
structure Image (α : Type) where
  height : ℕ
  width : ℕ
  channels : ℕ
  pix : ℕ → ℕ → ℕ → α

/-- `cv2.borderInterpolate(p, len, cv2.BORDER_WRAP)`: an out-of-range index
wraps modulo the image extent.  `BORDER_WRAP` applies this on BOTH axes. -/
def wrapIdx (p : ℤ) (len : ℕ) : ℕ := (p % (len : ℤ)).toNat

/-- One channel of `cv2.remap(..., cv2.INTER_LINEAR, borderMode =
cv2.BORDER_WRAP)` (line 102): bilinear interpolation of the four integer
neighbours of the fractional source position, each fetched with BOTH the
row and the column index wrapped modulo the image size. -/
def remapPixel {α : Type} [LinearOrderedField α] [FloorRing α]
    (pix : ℕ → ℕ → α) (h w : ℕ) (sx sy : α) : α :=
  let x0 : ℤ := ⌊sx⌋
  let y0 : ℤ := ⌊sy⌋
  let fx : α := sx - (x0 : α)
  let fy : α := sy - (y0 : α)
  let p : ℤ → ℤ → α := fun yi xi => pix (wrapIdx yi h) (wrapIdx xi w)
  (1 - fy) * ((1 - fx) * p y0 x0 + fx * p y0 (x0 + 1)) +
    fy * ((1 - fx) * p (y0 + 1) x0 + fx * p (y0 + 1) (x0 + 1))

/-- The rotated ray grid (lines 86-89): `vec_rot = R @ vec` for each ray of
the scaled grid. -/
noncomputable def rotatedRays (n : ℕ) (yawR pitchR rollR : ℝ) : List Vec3 :=
  (scaledRays n).map fun v => (composeR yawR pitchR rollR).mulVec v

/-- The per-ray source pixel coordinates (lines 92-97), row-major. -/
noncomputable def srcCoords (w h n : ℕ) (yawR pitchR rollR : ℝ) :
    List (ℝ × ℝ) :=
  (rotatedRays n yawR pitchR rollR).map fun v => (srcX v w, srcY v h)

/-- `cv2.remap` applied to the whole coordinate grid (lines 100-102): the
output is an n x n image with the channel count of the input, each output
pixel bilinearly sampled at its mapped source coordinates. -/
noncomputable def remapImage (img : Image ℝ) (coords : List (ℝ × ℝ))
    (n : ℕ) : Image ℝ :=
  { height := n, width := n, channels := img.channels,
    pix := fun r c ch =>
      remapPixel (fun yy xx => img.pix yy xx ch) img.height img.width
        (coords.getD (r * n + c) (0, 0)).1 (coords.getD (r * n + c) (0, 0)).2 }

/-- `perspective_projection(equirect_img, face_size, yaw, pitch, roll)`
(lines 43-104): degree-to-radian conversion, ray grid, rotation, spherical
mapping and resampling.  The function performs no validation of
`face_size` or of the panorama dimensions. -/
noncomputable def perspective_projection (img : Image ℝ) (face_size : ℕ)
    (yaw pitch roll : ℝ) : Image ℝ :=
  remapImage img
    (srcCoords img.width img.height face_size
      (deg2rad yaw) (deg2rad pitch) (deg2rad roll)) face_size

/-- The canonical direction angles (lines 29-34); only the four face names
are ever looked up, so the final branch is only reached for "left". -/
noncomputable def face_angles (face : String) : ℝ × ℝ × ℝ :=
  if face = "front" then (0, 0, 0)
  else if face = "right" then (90, 0, 0)
  else if face = "back" then (180, 0, 0)
  else (-90, 0, 0)

/-- `equirectangular_to_cubemap(img, face_size)` (lines 5-41): one
perspective projection per canonical face, in the order front, right,
back, left. -/
noncomputable def equirectangular_to_cubemap (img : Image ℝ)
    (face_size : ℕ) : List (Image ℝ) :=
  ["front", "right", "back", "left"].map fun face =>
    perspective_projection img face_size (face_angles face).1
      (face_angles face).2.1 (face_angles face).2.2

/-- C2 (code bug): the engine performs no degenerate-geometry validation.
With face_size = 0 the projection silently returns an empty 0 x 0 image
for any panorama (and any angles) instead of rejecting the input before
sampling; no error channel exists anywhere in the engine. -/
theorem C2_no_degenerate_geometry_rejection (img : Image ℝ)
    (yaw pitch roll : ℝ) :
    (perspective_projection img 0 yaw pitch roll).height = 0 ∧
    (perspective_projection img 0 yaw pitch roll).width = 0 ∧
    (perspective_projection img 0 yaw pitch roll).channels = img.channels :=
  ⟨rfl, rfl, rfl⟩

/-- C9: the pipeline is a pure function of (panorama, direction, faceSize):
re-running it yields an identical result, and the cubemap is exactly the
list of the four per-direction projections, each depending only on its own
inputs. -/
theorem C9_pipeline_deterministic (img : Image ℝ) (face_size : ℕ) :
    equirectangular_to_cubemap img face_size =
      equirectangular_to_cubemap img face_size ∧
    equirectangular_to_cubemap img face_size =
      [perspective_projection img face_size 0 0 0,
       perspective_projection img face_size 90 0 0,
       perspective_projection img face_size 180 0 0,
       perspective_projection img face_size (-90) 0 0] := by
  refine ⟨rfl, ?_⟩
  simp [equirectangular_to_cubemap, face_angles]

lemma linspace_one (a b : ℝ) : linspace a b 1 = [a] := by
  unfold linspace
  rw [show List.range 1 = [0] from rfl]
  simp

lemma rawRays_one : rawRays 1 = [⟨-1, 1, 1⟩] := by
  unfold rawRays
  rw [show List.range (1 * 1) = [0] from rfl]
  simp [linspace_one]

lemma normRays_one :
    normRays 1 =
      [⟨-(Real.sqrt 3)⁻¹, (Real.sqrt 3)⁻¹, (Real.sqrt 3)⁻¹⟩] := by
  have hn : Vec3.norm ⟨-1, 1, 1⟩ = Real.sqrt 3 := by
    unfold Vec3.norm
    norm_num
  simp [normRays, rawRays_one, Vec3.normalize, hn, neg_div, one_div]

lemma tan_theta_one : Real.tan (deg2rad (fov / 2)) = 1 := by
  have h : deg2rad (fov / 2) = Real.pi / 4 := by
    unfold deg2rad fov
    ring
  rw [h, Real.tan_pi_div_four]

lemma scaledRays_one :
    scaledRays 1 =
      [⟨-(Real.sqrt 3)⁻¹, (Real.sqrt 3)⁻¹, (Real.sqrt 3)⁻¹⟩] := by
  simp [scaledRays, normRays_one, tan_theta_one]

lemma rotatedRays_one :
    rotatedRays 1 0 0 0 =
      [⟨-(Real.sqrt 3)⁻¹, (Real.sqrt 3)⁻¹, (Real.sqrt 3)⁻¹⟩] := by
  simp [rotatedRays, scaledRays_one, composeR_zero, mulVec_id]

lemma srcX_corner :
    srcX ⟨-(Real.sqrt 3)⁻¹, (Real.sqrt 3)⁻¹, (Real.sqrt 3)⁻¹⟩ 9 = 3 := by
  have hs3 : (0:ℝ) < Real.sqrt 3 := Real.sqrt_pos.mpr (by norm_num)
  have hpos : (0:ℝ) < (Real.sqrt 3)⁻¹ := by positivity
  have hlon : lonOf ⟨-(Real.sqrt 3)⁻¹, (Real.sqrt 3)⁻¹, (Real.sqrt 3)⁻¹⟩ =
      -(Real.pi / 4) := by
    unfold lonOf atan2
    rw [if_pos hpos]
    have hdiv : (-(Real.sqrt 3)⁻¹) / (Real.sqrt 3)⁻¹ = -1 := by
      field_simp
    rw [hdiv, show (-1 : ℝ) = -(1:ℝ) by ring, Real.arctan_neg,
      Real.arctan_one]
  unfold srcX
  rw [hlon]
  have hpi : Real.pi ≠ 0 := ne_of_gt Real.pi_pos
  push_cast
  field_simp
  ring

/-- C3 counterexample: with faceSize = 1 and the front direction on a
9 x 9 panorama, the single ray is the corner ray (-1,1,1) — np.linspace
with one sample yields only the start point -1 — so the single output
pixel is sampled at source column 3, not at the panorama center column
(9-1)/2 = 4. -/
theorem C3_counterexample :
    rawRays 1 = [⟨-1, 1, 1⟩] ∧
    (srcCoords 9 9 1 (deg2rad 0) (deg2rad 0) (deg2rad 0)).map Prod.fst =
      [3] ∧
    ((9:ℝ) - 1) / 2 = 4 ∧ (3:ℝ) ≠ 4 := by
  refine ⟨rawRays_one, ?_, by norm_num, by norm_num⟩
  have h0 : deg2rad 0 = 0 := by
    unfold deg2rad
    ring
  rw [h0]
  simp [srcCoords, rotatedRays_one, srcX_corner]

/-- C3 amended: with faceSize = 1 the pipeline totally computes a single
1 x 1 output pixel (no crash), but the single generated ray is the corner
ray (-1, 1, 1) (normalized to (-1,1,1)/sqrt 3), not the central ray
(0,0,1): np.linspace(-1, 1, 1) contains only the start point -1, so the
pixel is sampled off the panorama center of the direction. -/
theorem C3_facesize_one_single_corner_ray (img : Image ℝ)
    (yaw pitch roll : ℝ) :
    (perspective_projection img 1 yaw pitch roll).height = 1 ∧
    (perspective_projection img 1 yaw pitch roll).width = 1 ∧
    rawRays 1 = [⟨-1, 1, 1⟩] ∧
    normRays 1 =
      [⟨-(Real.sqrt 3)⁻¹, (Real.sqrt 3)⁻¹, (Real.sqrt 3)⁻¹⟩] :=
  ⟨rfl, rfl, rawRays_one, normRays_one⟩

/-- The two-row test panorama of the vertical-boundary check: the top row
(row 0, the north pole) holds 0, the bottom row (row 1, the south pole)
holds 100, on every column and channel. -/
def topBottomPix : ℕ → ℕ → ℚ := fun yy _ => if yy = 0 then 0 else 100

/-- C1 (code bug): sampling the 2 x 2 top/bottom test panorama at
src_x = 0, src_y = -1/2 (just above the top row) yields 50 — the average
of the top row (0) and of the OPPOSITE pole row (100) fetched by vertical
wrap-around — instead of the top-row value 0 that vertical clamping
requires.  `cv2.BORDER_WRAP` wraps both axes and nothing in
`perspective_projection` pre-clamps `src_y`. -/
theorem C1_vertical_wrap_not_clamp :
    remapPixel topBottomPix 2 2 0 (-(1:ℚ)/2) = 50 ∧
    topBottomPix 0 0 = 0 ∧ (50:ℚ) ≠ 0 := by
  refine ⟨?_, rfl, by norm_num⟩
  have hf0 : ⌊(0:ℚ)⌋ = 0 := by norm_num
  have hfm : ⌊(-(1:ℚ)/2)⌋ = -1 := by norm_num
  have hw_m1 : wrapIdx (-1) 2 = 1 := by decide
  have hw_0 : wrapIdx 0 2 = 0 := by decide
  have hw_00 : wrapIdx (-1 + 1) 2 = 0 := by decide
  have hw_01 : wrapIdx (0 + 1) 2 = 1 := by decide
  simp only [remapPixel, hf0, hfm, hw_m1, hw_0, hw_00, hw_01]
  norm_num [topBottomPix]

/-- `os.path.splitext(filename)[0]` for a bare file name (no directory
separators, as produced by `os.listdir`): drop the part from the last dot
on, unless every character before that dot is itself a dot (Python does
not treat leading dots as starting an extension). -/
def splitextBase (s : String) : String :=
  let cs := s.toList
  let cut := (List.range cs.length).filter fun i =>
    (cs.getD i ' ' == '.') &&
      ((List.range i).any fun j => cs.getD j ' ' != '.')
  match cut.getLast? with
  | some i => String.mk (cs.take i)
  | none => s

/-- The output face order of the batch orchestrator (line 159). -/
def face_names : List String := ["front", "right", "back", "left"]

/-- One iteration of `process_panoramas` for one loaded image (lines
156-162): compute the four faces and pair each with its output file name
`f"{base_name}_{face}.jpg"` (line 161). -/
noncomputable def processFile (filename : String) (img : Image ℝ)
    (face_size : ℕ) : List (String × Image ℝ) :=
  (face_names.zip (equirectangular_to_cubemap img face_size)).map fun p =>
    (splitextBase filename ++ "_" ++ p.1 ++ ".jpg", p.2)

/-- C4 counterexample: for the input file "pano.png" the orchestrator
names the faces "pano_front.jpg", ..., not "pano_front.png", ...: the
output extension is hard-coded ".jpg" and does not follow the input
file's extension. -/
theorem C4_counterexample :
    (processFile "pano.png" ⟨2, 4, 3, fun _ _ _ => 0⟩ 1).map Prod.fst =
      ["pano_front.jpg", "pano_right.jpg", "pano_back.jpg",
        "pano_left.jpg"] ∧
    "pano_front.jpg" ≠ "pano_front.png" := by
  refine ⟨?_, by decide⟩
  simp [processFile, face_names, equirectangular_to_cubemap]
  decide

/-- C4 amended: for every processed input file the orchestrator emits, in
order, the four faces front, right, back, left, each a face_size x
face_size image with the channel count of the input panorama, named
`<originalBaseName>_<faceName>.jpg` — the extension is always ".jpg",
regardless of the input file's extension. -/
theorem C4_output_naming_and_shape (filename : String) (img : Image ℝ)
    (face_size : ℕ) :
    (processFile filename img face_size).map Prod.fst =
      [splitextBase filename ++ "_" ++ "front" ++ ".jpg",
       splitextBase filename ++ "_" ++ "right" ++ ".jpg",
       splitextBase filename ++ "_" ++ "back" ++ ".jpg",
       splitextBase filename ++ "_" ++ "left" ++ ".jpg"] ∧
    (processFile filename img face_size).map
        (fun p => ((p.2).height, (p.2).width, (p.2).channels)) =
      List.replicate 4 (face_size, face_size, img.channels) := by
  constructor <;>
    simp [processFile, face_names, equirectangular_to_cubemap,
      perspective_projection, remapImage, List.replicate]

/-- Python `str.split()` with no separator argument: split on whitespace
runs, discarding empty pieces. -/
def pySplit (s : String) : List String :=
  (s.split Char.isWhitespace).filter fun t => t != ""

/-- One parsed camera record, with the nine rotation-matrix entries, the
translation vector and the focal length (lines 27-33 of
`export_camera_trajectory.py`). -/
structure Camera where
  R00 : ℚ
  R01 : ℚ
  R02 : ℚ
  R10 : ℚ
  R11 : ℚ
  R12 : ℚ
  R20 : ℚ
  R21 : ℚ
  R22 : ℚ
  Tx : ℚ
  Ty : ℚ
  Tz : ℚ
  FocalLength : ℚ

/-- Processing of one line of `cameras.txt` by `parse_cameras` (lines
10-36): lines starting with '#' and blank lines are skipped; the stripped
line is split on whitespace; lines that do not yield exactly 13 tokens
are skipped; the 13 tokens are parsed by Python `float` — modelled as an
arbitrary parse function `pf` — and if any token fails to parse
(`ValueError`, caught by the `except`) the line is skipped; otherwise one
record is built from the 13 parsed values.  `none` models a skipped
line. -/
def parseLine (pf : String → Option ℚ) (line : String) : Option Camera :=
  if line.startsWith "#" || line.trim == "" then none
  else if (pySplit line.trim).length != 13 then none
  else
    match (pySplit line.trim).mapM pf with
    | some vals =>
        some ⟨vals.getD 0 0, vals.getD 1 0, vals.getD 2 0, vals.getD 3 0,
          vals.getD 4 0, vals.getD 5 0, vals.getD 6 0, vals.getD 7 0,
          vals.getD 8 0, vals.getD 9 0, vals.getD 10 0, vals.getD 11 0,
          vals.getD 12 0⟩
    | none => none

/-- `parse_cameras` over the lines of the input file (lines 3-38): the
returned list collects exactly the successfully parsed records, in
order; skipped lines contribute nothing and no error escapes. -/
def parse_cameras (pf : String → Option ℚ) (lines : List String) :
    List Camera :=
  lines.filterMap (parseLine pf)

/-- C10: the parser is total — skipped lines yield no record rather than
an error.  A line produces a record exactly when it does not start with
'#', is not blank, splits into exactly 13 whitespace-separated tokens and
all 13 tokens parse as floats; the record's 13 fields are exactly the 13
parsed values of that one line, and the file-level result collects the
per-line records. -/
theorem C10_parse_cameras_total (pf : String → Option ℚ)
    (lines : List String) (line : String) (cam : Camera) :
    (parse_cameras pf lines = lines.filterMap (parseLine pf)) ∧
    (cam ∈ parse_cameras pf lines ↔
      ∃ l ∈ lines, parseLine pf l = some cam) ∧
    (parseLine pf line = some cam ↔
      ¬ line.startsWith "#" ∧ line.trim ≠ "" ∧
      (pySplit line.trim).length = 13 ∧
      ∃ vals, (pySplit line.trim).mapM pf = some vals ∧
        cam = ⟨vals.getD 0 0, vals.getD 1 0, vals.getD 2 0, vals.getD 3 0,
          vals.getD 4 0, vals.getD 5 0, vals.getD 6 0, vals.getD 7 0,
          vals.getD 8 0, vals.getD 9 0, vals.getD 10 0, vals.getD 11 0,
          vals.getD 12 0⟩) := by
  refine ⟨rfl, List.mem_filterMap, ?_⟩
  unfold parseLine
  split_ifs with h1 h2
  · simp only [Bool.or_eq_true, beq_iff_eq] at h1
    constructor
    · intro h
      exact absurd h (by simp)
    · rintro ⟨hns, hnb, -⟩
      rcases h1 with h1 | h1
      · exact hns h1
      · exact hnb h1
  · simp only [Bool.or_eq_true, beq_iff_eq, not_or] at h1
    rw [bne_iff_ne] at h2
    constructor
    · intro h
      exact absurd h (by simp)
    · rintro ⟨-, -, hlen, -⟩
      exact h2 hlen
  · simp only [Bool.or_eq_true, beq_iff_eq, not_or] at h1
    rw [bne_iff_ne, not_ne_iff] at h2
    rcases hm : (pySplit line.trim).mapM pf with _ | vals
    · constructor
      · intro h
        exact absurd h (by simp)
      · rintro ⟨-, -, -, vals, hv, -⟩
        exact absurd hv (by simp)
    · constructor
      · intro h
        refine ⟨h1.1, h1.2, h2, vals, rfl, ?_⟩
        exact (Option.some.inj h).symm
      · rintro ⟨-, -, -, vals2, hv, hcam⟩
        have hv2 := Option.some.inj hv
        rw [hcam, hv2]

/-- C7 counterexample: at faceSize = 1 the x samples are just [-1], so the
endpoint 1 is NOT included — "x sampled at faceSize evenly spaced points
including both endpoints" fails for faceSize = 1 (np.linspace with one
sample returns only the start point). -/
theorem C7_counterexample :
    linspace (-1) 1 1 = [-1] ∧ ¬ ((1:ℝ) ∈ linspace (-1) 1 1) := by
  refine ⟨linspace_one (-1) 1, ?_⟩
  rw [linspace_one (-1) 1]
  simp only [List.mem_singleton]
  norm_num
